import Mathlib

/-!
Verification development for the SIPly Smart goal-planner core
(`Planner.tsx` / `computeResults` and friends).

Modelling conventions:
* A raw numeric text field is embedded as its JavaScript `Number(...)` parse
  outcome: `some q` when the text parses to the (finite) number `q`, `none`
  when it parses to `NaN`.  Exact rational arithmetic stands in for IEEE
  doubles.
* `Number(x) || d` (the code's pervasive parse-with-fallback idiom) is
  `jsOr`: both `NaN` and `0` are falsy, so they fall through to `d`.
* Quantities the code computes without `Math.pow(_, years)` are exact
  rationals and stay in `ℚ`; the inflation factor uses a real power with a
  possibly fractional exponent, so the inflation-adjusted target and
  everything downstream of it live in `ℝ`.
* Display-only strings (goal name, goal type, the `yearLabel` of a
  projection point, the emoji/label text of a health tier, `monthsInvested`
  which the math never reads) are omitted; the health tier is an inductive
  with one constructor per emoji/label pair of the source.
-/

/-- Parse outcome of a raw numeric text field: `some q` when `Number(text)`
is the finite number `q`, `none` when it is `NaN`. -/
abbrev RawValue : Type := Option ℚ

/-- Embeds the JavaScript expression `v || d` applied to a parse outcome:
`NaN` and `0` are falsy and fall back to `d`. -/
def jsOr (v : RawValue) (d : ℚ) : ℚ :=
  match v with
  | Option.none => d
  | Option.some q => if q = 0 then d else q

/-- The numeric goal fields of the `Inputs` record (`Planner.tsx`), each a
raw parse outcome.  `goalName`, `goalType` and `monthsInvested` are
display-only and never read by the math, so they are omitted. -/
structure Inputs where
  targetAmount : RawValue
  years : RawValue
  currentSavings : RawValue
  monthlyContribution : RawValue
  annualReturn : RawValue
  inflationRate : RawValue
  priority : RawValue

/-- The health tiers returned by `getHealthScore`, one constructor per
emoji/label pair of the source (`Set a goal first`, `Very weak`,
`Needs work`, `Almost there`, `On track`, `Overachiever`). -/
inductive HealthTier where
  | undefinedGoal
  | veryWeak
  | needsWork
  | almostThere
  | onTrack
  | overachiever
deriving DecidableEq

/-- `getHealthScore(fvTotal, effectiveTarget)` from the source. -/
noncomputable def getHealthScore (fvTotal effectiveTarget : ℝ) : HealthTier :=
  if effectiveTarget ≤ 0 then HealthTier.undefinedGoal
  else
    let coverage := fvTotal / effectiveTarget
    if coverage < 0.5 then HealthTier.veryWeak
    else if coverage < 0.8 then HealthTier.needsWork
    else if coverage < 1.0 then HealthTier.almostThere
    else if coverage < 1.3 then HealthTier.onTrack
    else HealthTier.overachiever

/-- `const baseTarget = Number(inputs.targetAmount) || 0`. -/
def baseTargetN (i : Inputs) : ℚ := jsOr i.targetAmount 0

/-- `const years = Number(inputs.years) || 0`. -/
def yearsN (i : Inputs) : ℚ := jsOr i.years 0

/-- `const inflation = Number(inputs.inflationRate) || 0`. -/
def inflationN (i : Inputs) : ℚ := jsOr i.inflationRate 0

/-- `const currentSavings = Number(inputs.currentSavings) || 0`. -/
def currentSavingsN (i : Inputs) : ℚ := jsOr i.currentSavings 0

/-- `const monthlyContribution = Number(inputs.monthlyContribution) || 0`. -/
def monthlyContributionN (i : Inputs) : ℚ := jsOr i.monthlyContribution 0

/-- `const annualReturn = Number(inputs.annualReturn) || 0`. -/
def annualReturnN (i : Inputs) : ℚ := jsOr i.annualReturn 0

/-- `years > 0 && inflation > 0 ? Math.pow(1 + inflation / 100, years) : 1`.
The exponent is a possibly fractional number of years, hence a real power. -/
noncomputable def inflationFactorOf (i : Inputs) : ℝ :=
  if 0 < yearsN i ∧ 0 < inflationN i then
    (1 + (inflationN i : ℝ) / 100) ^ ((yearsN i : ℝ))
  else 1

/-- `const effectiveTarget = baseTarget * inflationFactor`. -/
noncomputable def effectiveTargetOf (i : Inputs) : ℝ :=
  (baseTargetN i : ℝ) * inflationFactorOf i

/-- `const months = Math.max(1, Math.round(years * 12))` (the result is at
least `1`, so taking `Int.toNat` loses nothing). -/
def monthsOf (i : Inputs) : ℕ :=
  (max 1 (round (yearsN i * 12))).toNat

/-- `const r = annualReturn / 100`. -/
def rOf (i : Inputs) : ℚ := annualReturnN i / 100

/-- `const rm = r / 12`. -/
def rmOf (i : Inputs) : ℚ := rOf i / 12

/-- `fvLump`: `currentSavings` when `r === 0`, else
`currentSavings * Math.pow(1 + rm, months)`. -/
def fvLumpOf (i : Inputs) : ℚ :=
  if rOf i = 0 then currentSavingsN i
  else currentSavingsN i * (1 + rmOf i) ^ monthsOf i

/-- `fvSip`: `monthlyContribution * months` when `r === 0`, else
`monthlyContribution * ((Math.pow(1 + rm, months) - 1) / rm)`. -/
def fvSipOf (i : Inputs) : ℚ :=
  if rOf i = 0 then monthlyContributionN i * monthsOf i
  else monthlyContributionN i * (((1 + rmOf i) ^ monthsOf i - 1) / rmOf i)

/-- `const fvTotal = fvLump + fvSip`. -/
def fvTotalOf (i : Inputs) : ℚ := fvLumpOf i + fvSipOf i

/-- `const gap = fvTotal - effectiveTarget`. -/
noncomputable def gapOf (i : Inputs) : ℝ :=
  (fvTotalOf i : ℝ) - effectiveTargetOf i

/-- `const needed = effectiveTarget - fvLump`. -/
noncomputable def neededOf (i : Inputs) : ℝ :=
  effectiveTargetOf i - (fvLumpOf i : ℝ)

/-- The `monthlyRequired` computation: `0` when `needed <= 0`, else
`needed / months` when `r === 0`, else `(needed * rm) / denom` with
`denom = Math.pow(1 + rm, months) - 1`. -/
noncomputable def monthlyRequiredOf (i : Inputs) : ℝ :=
  if neededOf i ≤ 0 then 0
  else if rOf i = 0 then neededOf i / (monthsOf i : ℝ)
  else (neededOf i * (rmOf i : ℝ)) / ((1 + (rmOf i : ℝ)) ^ monthsOf i - 1)

/-- `const coverage = effectiveTarget > 0 ? fvTotal / effectiveTarget : 0`. -/
noncomputable def coverageOf (i : Inputs) : ℝ :=
  if 0 < effectiveTargetOf i then (fvTotalOf i : ℝ) / effectiveTargetOf i
  else 0

/-- A sampled trajectory point: month index and cumulative value.  The
display label `"{(m/12).toFixed(1)}y"` is omitted. -/
structure ProjectionPoint where
  month : ℕ
  value : ℚ
deriving DecidableEq

/-- The running `value` of the projection loop after `m` iterations,
starting from `currentSavings`: each month
`value += monthlyContribution` when `r === 0`, else
`value = value * (1 + rm) + monthlyContribution`. -/
def trajValue (i : Inputs) : ℕ → ℚ
  | 0 => currentSavingsN i
  | m + 1 =>
    if rOf i = 0 then trajValue i m + monthlyContributionN i
    else trajValue i m * (1 + rmOf i) + monthlyContributionN i

/-- The sampling condition `m === 1 || m % 6 === 0 || m === months`. -/
def sampledMonth (m months : ℕ) : Prop :=
  m = 1 ∨ m % 6 = 0 ∨ m = months

instance (m months : ℕ) : Decidable (sampledMonth m months) := by
  unfold sampledMonth; infer_instance

/-- The projection loop `for (m = 1; m <= months; m++)`, pushing a point
exactly at the sampled months. -/
def projectionOf (i : Inputs) : List ProjectionPoint :=
  (List.range (monthsOf i)).filterMap fun k =>
    if sampledMonth (k + 1) (monthsOf i) then
      some ⟨k + 1, trajValue i (k + 1)⟩
    else none

/-- The `Results` record of the source.  `monthlyRequired` is
`number | null` in the source type; `computeResults` assigns a number on
every path, hence always returns `some`.  The emoji/label pair is the
`health` tier. -/
structure Results where
  fvLump : ℚ
  fvSip : ℚ
  fvTotal : ℚ
  gap : ℝ
  monthlyRequired : Option ℝ
  projection : List ProjectionPoint
  health : HealthTier
  coverage : ℝ
  effectiveTarget : ℝ

/-- `computeResults(inputs)` from the source, assembled from the
step-by-step definitions above (one definition per `const` of the
source body). -/
noncomputable def computeResults (i : Inputs) : Results :=
  { fvLump := fvLumpOf i
    fvSip := fvSipOf i
    fvTotal := fvTotalOf i
    gap := gapOf i
    monthlyRequired := some (monthlyRequiredOf i)
    projection := projectionOf i
    health := getHealthScore (fvTotalOf i : ℝ) (effectiveTargetOf i)
    coverage := coverageOf i
    effectiveTarget := effectiveTargetOf i }

/-- A goal of the portfolio: stable integer id, its inputs, and the
optional computed `Results` (`null` until explicitly computed). -/
structure Goal where
  id : ℤ
  inputs : Inputs
  results : Option Results

/-- The accumulator of the aggregate `useMemo` loop in `Planner`:
`totalSip`, `totalRequired`, `coverageSum`, `coverageCount`. -/
structure AggAcc where
  totalSip : ℚ
  totalRequired : ℝ
  coverageSum : ℝ
  coverageCount : ℕ

/-- One step of the `goals.forEach` aggregation loop:
`totalSip += Number(g.inputs.monthlyContribution) || 0`;
`totalRequired += Math.max(0, g.results.monthlyRequired)` when results
exist and `monthlyRequired !== null`; coverage sum and count updated when
results exist and `coverage > 0`. -/
noncomputable def aggStep (acc : AggAcc) (g : Goal) : AggAcc :=
  let acc1 : AggAcc :=
    { acc with totalSip := acc.totalSip + monthlyContributionN g.inputs }
  let acc2 : AggAcc :=
    match g.results with
    | some res =>
      match res.monthlyRequired with
      | some mr => { acc1 with totalRequired := acc1.totalRequired + max 0 mr }
      | none => acc1
    | none => acc1
  match g.results with
  | some res =>
    if 0 < res.coverage then
      { acc2 with
        coverageSum := acc2.coverageSum + res.coverage
        coverageCount := acc2.coverageCount + 1 }
    else acc2
  | none => acc2

/-- The whole `goals.forEach` aggregation loop, started from all-zero
accumulators. -/
noncomputable def aggOf (goals : List Goal) : AggAcc :=
  goals.foldl aggStep ⟨0, 0, 0, 0⟩

/-- `const avgCoverage = coverageCount > 0 ? coverageSum / coverageCount : 0`. -/
noncomputable def avgCoverageOf (goals : List Goal) : ℝ :=
  if 0 < (aggOf goals).coverageCount then
    (aggOf goals).coverageSum / ((aggOf goals).coverageCount : ℝ)
  else 0

/-- The portfolio badges, one constructor per label of the source
(`Getting started`, `On track`, `Overprepared`, `Almost there`,
`High risk of shortfall`). -/
inductive Badge where
  | gettingStarted
  | onTrack
  | overprepared
  | almostThere
  | highRisk
deriving DecidableEq

/-- The badge if-chain of the source: label starts at `Getting started`
and is overwritten by the first matching branch of
`avg >= 1 && avg < 1.2` / `avg >= 1.2` / `avg >= 0.7` / `avg > 0`. -/
noncomputable def badgeOfAvg (avg : ℝ) : Badge :=
  if 1 ≤ avg ∧ avg < 1.2 then Badge.onTrack
  else if 1.2 ≤ avg then Badge.overprepared
  else if 0.7 ≤ avg then Badge.almostThere
  else if 0 < avg then Badge.highRisk
  else Badge.gettingStarted

/-- The portfolio badge computed from the average coverage. -/
noncomputable def portfolioBadge (goals : List Goal) : Badge :=
  badgeOfAvg (avgCoverageOf goals)

/-- `const monthlyIncomeNum = Number(monthlyIncome) || 0`. -/
def monthlyIncomeNumOf (monthlyIncome : RawValue) : ℚ :=
  jsOr monthlyIncome 0

/-- The per-goal clamped priority used by `recommendedAllocation`:
`p = Number(g.inputs.priority) || 1; norm = Math.max(1, Math.min(5, p))`. -/
def normPriority (g : Goal) : ℚ :=
  max 1 (min 5 (jsOr g.inputs.priority 1))

/-- A suggested allocation entry (`id`, `suggestedSip`); the display
`name` string is omitted. -/
structure AllocationEntry where
  id : ℤ
  suggestedSip : ℤ
deriving DecidableEq

/-- `recommendedAllocation` from the source: `null` when
`!monthlyIncomeNum || monthlyIncomeNum <= 0` or when the summed clamped
priorities are `0`; otherwise each goal gets
`Math.round((norm / totalPriority) * (monthlyIncomeNum * 0.4))`. -/
def recommendedAllocation (goals : List Goal) (monthlyIncome : RawValue) :
    Option (List AllocationEntry) :=
  let monthlyIncomeNum := monthlyIncomeNumOf monthlyIncome
  if monthlyIncomeNum = 0 ∨ monthlyIncomeNum ≤ 0 then none
  else
    let safeMax : ℚ := monthlyIncomeNum * 0.4
    let totalPriority : ℚ := goals.foldl (fun sum g => sum + normPriority g) 0
    if totalPriority = 0 then none
    else
      some (goals.map fun g =>
        let share := (normPriority g / totalPriority) * safeMax
        ⟨g.id, round share⟩)

/-- The years perturbation of the scenario engine:
`(Number(base.years) + 2 || 2).toString()`.  `NaN + 2` is `NaN` (falsy,
hence `2`), and a parsed value `y` gives `y + 2` unless that sum is `0`
(falsy, hence `2`). -/
def scenarioYears (v : RawValue) : ℚ :=
  jsOr (v.map (· + 2)) 2

/-- `scenarioResults` from the source: three independent `computeResults`
runs on copies of the active goal's inputs, each with exactly one field
replaced — years via `scenarioYears`, monthly contribution via
`(Number(...) || 0) + 2000`, target via `Math.max(0, (Number(...) || 0) -
200000)` — returned as
`(scenarioPlus2Years, scenarioPlus2kSip, scenarioMinus2LTarget)`. -/
noncomputable def scenarioResults (activeGoal : Goal) :
    Results × Results × Results :=
  let base := activeGoal.inputs
  let scenarioPlus2Years :=
    computeResults { base with years := some (scenarioYears base.years) }
  let scenarioPlus2kSip :=
    computeResults
      { base with
        monthlyContribution := some (jsOr base.monthlyContribution 0 + 2000) }
  let scenarioMinus2LTarget :=
    computeResults
      { base with
        targetAmount := some (max 0 (jsOr base.targetAmount 0 - 200000)) }
  (scenarioPlus2Years, scenarioPlus2kSip, scenarioMinus2LTarget)

/-! ### Basic facts about the normalized quantities -/

lemma rOf_eq_zero_iff (i : Inputs) : rOf i = 0 ↔ annualReturnN i = 0 := by
  unfold rOf
  rw [div_eq_zero_iff]
  norm_num

lemma rmOf_eq_zero_iff (i : Inputs) : rmOf i = 0 ↔ rOf i = 0 := by
  unfold rmOf
  rw [div_eq_zero_iff]
  norm_num

lemma one_le_monthsOf (i : Inputs) : 1 ≤ monthsOf i := by
  unfold monthsOf
  have h : (1 : ℤ) ≤ max 1 (round (yearsN i * 12)) := le_max_left _ _
  exact Int.toNat_le_toNat h

lemma monthsOf_ne_zero (i : Inputs) : monthsOf i ≠ 0 :=
  Nat.one_le_iff_ne_zero.mp (one_le_monthsOf i)

/-- C1: for every normalized input, the required-contribution solver
returns `0` when `needed = effectiveTarget - fvLump ≤ 0`; otherwise it
returns `needed / months` when the monthly rate `rm` is `0`, and
`needed * rm / ((1 + rm) ^ months - 1)` when `rm` is nonzero. -/
theorem C1_solver_formula (i : Inputs) :
    (computeResults i).monthlyRequired =
      some
        (if (computeResults i).effectiveTarget - ((computeResults i).fvLump : ℝ) ≤ 0 then 0
         else if rmOf i = 0 then
           ((computeResults i).effectiveTarget - ((computeResults i).fvLump : ℝ)) / (monthsOf i : ℝ)
         else
           ((computeResults i).effectiveTarget - ((computeResults i).fvLump : ℝ)) * (rmOf i : ℝ) /
             ((1 + (rmOf i : ℝ)) ^ monthsOf i - 1)) := by
  show some (monthlyRequiredOf i) = _
  have hneed : (computeResults i).effectiveTarget - ((computeResults i).fvLump : ℝ) = neededOf i := rfl
  rw [hneed]
  unfold monthlyRequiredOf
  by_cases h0 : neededOf i ≤ 0
  · simp [h0]
  · by_cases hrm : rmOf i = 0
    · simp [h0, hrm, (rmOf_eq_zero_iff i).mp hrm]
    · have hr : ¬ rOf i = 0 := fun h => hrm ((rmOf_eq_zero_iff i).mpr h)
      simp [h0, hrm, hr]

/-- C3: for every goal whose normalized annual return is `0`, the
projection computes `fvLump = currentSavings` and
`fvSip = monthlyContribution * months` exactly, where
`months = max(1, round(years * 12))`. -/
theorem C3_zero_return_branch (i : Inputs) (h : annualReturnN i = 0) :
    (computeResults i).fvLump = currentSavingsN i ∧
    (computeResults i).fvSip = monthlyContributionN i * (monthsOf i : ℚ) ∧
    (monthsOf i : ℤ) = max 1 (round (yearsN i * 12)) := by
  have hr : rOf i = 0 := (rOf_eq_zero_iff i).mpr h
  refine ⟨?_, ?_, ?_⟩
  · show fvLumpOf i = _
    simp [fvLumpOf, hr]
  · show fvSipOf i = _
    simp [fvSipOf, hr]
  · unfold monthsOf
    exact Int.toNat_of_nonneg (le_trans (by norm_num) (le_max_left 1 _))

/-- Concrete instantiation of `C3_zero_return_branch`: the zero-return
scenario of the spec (savings 10000, contribution 1000, one year). -/
theorem C3_zero_return_branch_witness :
    (computeResults ⟨some 0, some 1, some 10000, some 1000, some 0, none, none⟩).fvLump =
        currentSavingsN ⟨some 0, some 1, some 10000, some 1000, some 0, none, none⟩ ∧
      (computeResults ⟨some 0, some 1, some 10000, some 1000, some 0, none, none⟩).fvSip =
        monthlyContributionN ⟨some 0, some 1, some 10000, some 1000, some 0, none, none⟩ *
          ((monthsOf ⟨some 0, some 1, some 10000, some 1000, some 0, none, none⟩ : ℚ)) ∧
      ((monthsOf ⟨some 0, some 1, some 10000, some 1000, some 0, none, none⟩ : ℤ)) =
        max 1 (round (yearsN ⟨some 0, some 1, some 10000, some 1000, some 0, none, none⟩ * 12)) :=
  C3_zero_return_branch ⟨some 0, some 1, some 10000, some 1000, some 0, none, none⟩ (by decide)

/-- C6: normalization is total (it is a function of the parse outcome and
never raises).  A field whose raw text fails to parse as a finite number
(`none`) resolves to `0`; the empty string (which `Number` parses to `0`)
also resolves to `0`; and the priority used by the allocation is
additionally clamped into `[1, 5]`. -/
theorem C6_normalization_total :
    (∀ i : Inputs,
      baseTargetN { i with targetAmount := none } = 0 ∧
      yearsN { i with years := none } = 0 ∧
      currentSavingsN { i with currentSavings := none } = 0 ∧
      monthlyContributionN { i with monthlyContribution := none } = 0 ∧
      annualReturnN { i with annualReturn := none } = 0 ∧
      inflationN { i with inflationRate := none } = 0) ∧
    (∀ i : Inputs, baseTargetN { i with targetAmount := some 0 } = 0) ∧
    (monthlyIncomeNumOf none = 0) ∧
    (∀ g : Goal, 1 ≤ normPriority g ∧ normPriority g ≤ 5) := by
  refine ⟨fun i => ⟨rfl, rfl, rfl, rfl, rfl, rfl⟩, fun i => rfl, rfl, fun g => ⟨?_, ?_⟩⟩
  · exact le_max_left _ _
  · exact max_le (by norm_num) (min_le_left _ _)

/-! ### Health-score region lemmas -/

section HealthRegions

variable {fv e : ℝ}

lemma ghs_veryWeak (he : 0 < e) (h : fv / e < 0.5) :
    getHealthScore fv e = HealthTier.veryWeak := by
  unfold getHealthScore
  rw [if_neg (not_le.mpr he)]
  simp only []
  rw [if_pos h]

lemma ghs_needsWork (he : 0 < e) (h1 : 0.5 ≤ fv / e) (h2 : fv / e < 0.8) :
    getHealthScore fv e = HealthTier.needsWork := by
  unfold getHealthScore
  rw [if_neg (not_le.mpr he)]
  simp only []
  rw [if_neg (not_lt.mpr h1), if_pos h2]

lemma ghs_almostThere (he : 0 < e) (h1 : 0.8 ≤ fv / e) (h2 : fv / e < 1.0) :
    getHealthScore fv e = HealthTier.almostThere := by
  unfold getHealthScore
  rw [if_neg (not_le.mpr he)]
  simp only []
  rw [if_neg (not_lt.mpr (by linarith)), if_neg (not_lt.mpr h1), if_pos h2]

lemma ghs_onTrack (he : 0 < e) (h1 : 1.0 ≤ fv / e) (h2 : fv / e < 1.3) :
    getHealthScore fv e = HealthTier.onTrack := by
  unfold getHealthScore
  rw [if_neg (not_le.mpr he)]
  simp only []
  rw [if_neg (not_lt.mpr (by linarith)), if_neg (not_lt.mpr (by linarith)),
    if_neg (not_lt.mpr h1), if_pos h2]

lemma ghs_overachiever (he : 0 < e) (h1 : 1.3 ≤ fv / e) :
    getHealthScore fv e = HealthTier.overachiever := by
  unfold getHealthScore
  rw [if_neg (not_le.mpr he)]
  simp only []
  rw [if_neg (not_lt.mpr (by linarith)), if_neg (not_lt.mpr (by linarith)),
    if_neg (not_lt.mpr (by linarith)), if_neg (not_lt.mpr h1)]

end HealthRegions

/-- C4: the health scorer is a total function of
`(fvTotal, effectiveTarget)`: a non-positive effective target yields the
sentinel tier, and otherwise the tier is exactly determined by
`coverage = fvTotal / effectiveTarget` with cut points
`0.5, 0.8, 1.0, 1.3`, each boundary half-open on the lower bound
(a coverage equal to a cut point falls in the higher tier). -/
theorem C4_health_tiers (fv e : ℝ) :
    (e ≤ 0 → getHealthScore fv e = HealthTier.undefinedGoal) ∧
    (0 < e →
      ((getHealthScore fv e = HealthTier.veryWeak ↔ fv / e < 0.5) ∧
       (getHealthScore fv e = HealthTier.needsWork ↔ 0.5 ≤ fv / e ∧ fv / e < 0.8) ∧
       (getHealthScore fv e = HealthTier.almostThere ↔ 0.8 ≤ fv / e ∧ fv / e < 1.0) ∧
       (getHealthScore fv e = HealthTier.onTrack ↔ 1.0 ≤ fv / e ∧ fv / e < 1.3) ∧
       (getHealthScore fv e = HealthTier.overachiever ↔ 1.3 ≤ fv / e))) := by
  constructor
  · intro h
    unfold getHealthScore
    rw [if_pos h]
  · intro he
    rcases lt_or_le (fv / e) 0.5 with h1 | h1
    · rw [ghs_veryWeak he h1]
      refine ⟨by simp [h1], ?_, ?_, ?_, ?_⟩ <;> constructor <;> intro h <;>
        first
          | exact absurd h (by decide)
          | linarith
    · rcases lt_or_le (fv / e) 0.8 with h2 | h2
      · rw [ghs_needsWork he h1 h2]
        refine ⟨?_, by simp [h1, h2], ?_, ?_, ?_⟩ <;> constructor <;> intro h <;>
          first
            | exact absurd h (by decide)
            | linarith
      · rcases lt_or_le (fv / e) 1.0 with h3 | h3
        · rw [ghs_almostThere he h2 h3]
          refine ⟨?_, ?_, by simp [h2, h3], ?_, ?_⟩ <;> constructor <;> intro h <;>
            first
              | exact absurd h (by decide)
              | linarith
        · rcases lt_or_le (fv / e) 1.3 with h4 | h4
          · rw [ghs_onTrack he h3 h4]
            refine ⟨?_, ?_, ?_, by simp [h3, h4], ?_⟩ <;> constructor <;> intro h <;>
              first
                | exact absurd h (by decide)
                | linarith
          · rw [ghs_overachiever he h4]
            refine ⟨?_, ?_, ?_, ?_, by simp [h4]⟩ <;> constructor <;> intro h <;>
              first
                | exact absurd h (by decide)
                | linarith

/-- Concrete instantiation of `C4_health_tiers`: coverage exactly at the
cut point `1.3` falls in the higher tier (`overachiever`). -/
theorem C4_health_tiers_witness :
    getHealthScore 13 10 = HealthTier.overachiever :=
  (((C4_health_tiers 13 10).2 (by norm_num)).2.2.2.2).mpr (by norm_num)

/-! ### Trajectory closed forms -/

lemma trajValue_zero_return (i : Inputs) (h : rOf i = 0) :
    ∀ m : ℕ, trajValue i m = currentSavingsN i + monthlyContributionN i * m
  | 0 => by simp [trajValue]
  | m + 1 => by
    rw [trajValue, if_pos h, trajValue_zero_return i h m]
    push_cast
    ring

lemma trajValue_compound (i : Inputs) (h : ¬ rOf i = 0) :
    ∀ m : ℕ,
      trajValue i m =
        currentSavingsN i * (1 + rmOf i) ^ m +
          monthlyContributionN i * (((1 + rmOf i) ^ m - 1) / rmOf i)
  | 0 => by simp [trajValue]
  | m + 1 => by
    have hrm : rmOf i ≠ 0 := fun hh => h ((rmOf_eq_zero_iff i).mp hh)
    rw [trajValue, if_neg h, trajValue_compound i h m]
    field_simp
    ring

/-- The loop value at the final month is exactly `fvLump + fvSip`. -/
lemma trajValue_months (i : Inputs) : trajValue i (monthsOf i) = fvTotalOf i := by
  by_cases h : rOf i = 0
  · rw [trajValue_zero_return i h, fvTotalOf, fvLumpOf, fvSipOf, if_pos h, if_pos h]
  · rw [trajValue_compound i h, fvTotalOf, fvLumpOf, fvSipOf, if_neg h, if_neg h]

lemma projectionOf_getLast (i : Inputs) :
    (projectionOf i).getLast? = some ⟨monthsOf i, trajValue i (monthsOf i)⟩ := by
  obtain ⟨n, hn⟩ : ∃ n, monthsOf i = n + 1 :=
    ⟨monthsOf i - 1, (Nat.succ_pred_eq_of_pos (one_le_monthsOf i)).symm⟩
  unfold projectionOf
  rw [hn]
  rw [show List.range (n + 1) = List.range n ++ [n] from List.range_succ n]
  rw [List.filterMap_append]
  have hs : sampledMonth (n + 1) (n + 1) := Or.inr (Or.inr rfl)
  rw [show List.filterMap
        (fun k =>
          if sampledMonth (k + 1) (n + 1) then
            some (⟨k + 1, trajValue i (k + 1)⟩ : ProjectionPoint)
          else none) [n] =
      [(⟨n + 1, trajValue i (n + 1)⟩ : ProjectionPoint)] from by simp [hs]]
  exact List.getLast?_concat _

lemma projectionOf_head (i : Inputs) :
    (projectionOf i).head? = some ⟨1, trajValue i 1⟩ := by
  obtain ⟨n, hn⟩ : ∃ n, monthsOf i = n + 1 :=
    ⟨monthsOf i - 1, (Nat.succ_pred_eq_of_pos (one_le_monthsOf i)).symm⟩
  unfold projectionOf
  rw [hn]
  rw [show List.range (n + 1) = 0 :: (List.range n).map Nat.succ from
    List.range_succ_eq_map n]
  have hs : sampledMonth (0 + 1) (n + 1) := Or.inl rfl
  rw [List.filterMap_cons]
  simp only [hs, if_pos]
  rfl

/-- C10: the projection sequence is never empty — month `1` is always the
first recorded point and `months ≥ 1` — and the value recorded at the
final trajectory month (month `months`, always sampled) is exactly the
closed-form total `fvLump + fvSip = fvTotal`, in both the zero-return
and the compound-growth branch. -/
theorem C10_trajectory_consistency (i : Inputs) :
    (computeResults i).projection ≠ [] ∧
    (computeResults i).projection.head?.map ProjectionPoint.month = some 1 ∧
    (computeResults i).projection.getLast? =
      some ⟨monthsOf i, (computeResults i).fvTotal⟩ ∧
    1 ≤ monthsOf i := by
  have hp : (computeResults i).projection = projectionOf i := rfl
  have ht : (computeResults i).fvTotal = fvTotalOf i := rfl
  refine ⟨?_, ?_, ?_, one_le_monthsOf i⟩
  · rw [hp]
    intro h
    have := projectionOf_head i
    rw [h] at this
    exact Option.noConfusion this
  · rw [hp, projectionOf_head i]
    rfl
  · rw [hp, ht, projectionOf_getLast i, trajValue_months i]

/-! ### Allocation facts -/

lemma foldl_normPriority (goals : List Goal) :
    ∀ a : ℚ, goals.foldl (fun sum g => sum + normPriority g) a =
      a + (goals.map normPriority).sum := by
  induction goals with
  | nil => intro a; simp
  | cons g t ih =>
    intro a
    simp only [List.foldl_cons, List.map_cons, List.sum_cons, ih (a + normPriority g)]
    ring

lemma one_le_normPriority (g : Goal) : 1 ≤ normPriority g :=
  le_max_left _ _

lemma sum_normPriority_pos (goals : List Goal) (h : goals ≠ []) :
    0 < (goals.map normPriority).sum := by
  cases goals with
  | nil => exact absurd rfl h
  | cons g t =>
    simp only [List.map_cons, List.sum_cons]
    have h1 : (1 : ℚ) ≤ normPriority g := one_le_normPriority g
    have h2 : 0 ≤ (t.map normPriority).sum :=
      List.sum_nonneg fun x hx => by
        obtain ⟨g2, _, hg2⟩ := List.mem_map.mp hx
        exact le_trans zero_le_one (hg2 ▸ one_le_normPriority g2)
    linarith

/-- C9: the priority-weighted allocation returns `null` exactly when the
monthly income is `≤ 0` (non-numeric income normalizes to `0`) or the
portfolio holds no goals; otherwise every goal is suggested
`round ((clampedPriority / sum of clamped priorities) * (0.4 * income))`,
each priority clamped into `[1, 5]` by `normPriority`. -/
theorem C9_allocation (goals : List Goal) (monthlyIncome : RawValue) :
    (recommendedAllocation goals monthlyIncome = none ↔
      monthlyIncomeNumOf monthlyIncome ≤ 0 ∨ goals = []) ∧
    (0 < monthlyIncomeNumOf monthlyIncome → goals ≠ [] →
      recommendedAllocation goals monthlyIncome =
        some (goals.map fun g =>
          ⟨g.id,
            round ((normPriority g / (goals.map normPriority).sum) *
              (0.4 * monthlyIncomeNumOf monthlyIncome))⟩)) := by
  by_cases hinc : monthlyIncomeNumOf monthlyIncome ≤ 0
  · have hcond : monthlyIncomeNumOf monthlyIncome = 0 ∨
        monthlyIncomeNumOf monthlyIncome ≤ 0 := Or.inr hinc
    constructor
    · rw [recommendedAllocation, if_pos hcond]
      simp [hinc]
    · intro hpos
      exact absurd hpos (not_lt.mpr hinc)
  · have hcond : ¬ (monthlyIncomeNumOf monthlyIncome = 0 ∨
        monthlyIncomeNumOf monthlyIncome ≤ 0) := by
      push_neg
      exact ⟨fun h => hinc (le_of_eq h), not_le.mp hinc⟩
    by_cases hg : goals = []
    · subst hg
      constructor
      · rw [recommendedAllocation, if_neg hcond]
        simp
      · intro _ hne
        exact absurd rfl hne
    · have htot : goals.foldl (fun sum g => sum + normPriority g) 0 =
          (goals.map normPriority).sum := by
        rw [foldl_normPriority goals 0, zero_add]
      have hpos : 0 < (goals.map normPriority).sum := sum_normPriority_pos goals hg
      have hne : ¬ goals.foldl (fun sum g => sum + normPriority g) 0 = 0 := by
        rw [htot]
        exact ne_of_gt hpos
      have halloc : recommendedAllocation goals monthlyIncome =
          some (goals.map fun g =>
            ⟨g.id,
              round ((normPriority g / (goals.map normPriority).sum) *
                (0.4 * monthlyIncomeNumOf monthlyIncome))⟩) := by
        rw [recommendedAllocation, if_neg hcond]
        simp only [if_neg hne]
        congr 1
        apply List.map_congr_left
        intro g _
        congr 1
        rw [htot]
        ring_nf
      constructor
      · rw [halloc]
        simp [hg, hinc]
      · intro _ _
        exact halloc

/-- A two-goal portfolio used to instantiate the allocation theorem. -/
def allocGoalA : Goal := ⟨1, ⟨none, none, none, none, none, none, some 5⟩, none⟩

/-- Second goal of the allocation portfolio; its raw priority `10` is
clamped down to `5`. -/
def allocGoalB : Goal := ⟨2, ⟨none, none, none, none, none, none, some 10⟩, none⟩

/-- Concrete instantiation of `C9_allocation`: income `1000`, two goals. -/
theorem C9_allocation_witness :
    recommendedAllocation [allocGoalA, allocGoalB] (some 1000) =
      some (([allocGoalA, allocGoalB] : List Goal).map fun g =>
        ⟨g.id,
          round ((normPriority g /
              (([allocGoalA, allocGoalB] : List Goal).map normPriority).sum) *
            (0.4 * monthlyIncomeNumOf (some 1000)))⟩) :=
  (C9_allocation [allocGoalA, allocGoalB] (some 1000)).2 (by decide)
    (List.cons_ne_nil _ _)

/-! ### Aggregate coverage facts -/

/-- The qualification rule of the aggregation loop: a goal contributes its
coverage exactly when it has computed `Results` and `coverage > 0`. -/
noncomputable def qualCoverage? (g : Goal) : Option ℝ :=
  match g.results with
  | some res => if 0 < res.coverage then some res.coverage else none
  | none => none

/-- The coverages of exactly those goals that have computed `Results` and
positive coverage, in portfolio order. -/
noncomputable def qualCoverages (goals : List Goal) : List ℝ :=
  goals.filterMap qualCoverage?

lemma aggStep_coverageSum (acc : AggAcc) (g : Goal) :
    (aggStep acc g).coverageSum =
      match qualCoverage? g with
      | some c => acc.coverageSum + c
      | none => acc.coverageSum := by
  cases hres : g.results with
  | none => simp [aggStep, qualCoverage?, hres]
  | some res =>
    by_cases hc : 0 < res.coverage
    · simp [aggStep, qualCoverage?, hres, hc]
      cases res.monthlyRequired <;> simp
    · simp [aggStep, qualCoverage?, hres, hc]
      cases res.monthlyRequired <;> simp

lemma aggStep_coverageCount (acc : AggAcc) (g : Goal) :
    (aggStep acc g).coverageCount =
      match qualCoverage? g with
      | some _ => acc.coverageCount + 1
      | none => acc.coverageCount := by
  cases hres : g.results with
  | none => simp [aggStep, qualCoverage?, hres]
  | some res =>
    by_cases hc : 0 < res.coverage
    · simp [aggStep, qualCoverage?, hres, hc]
      cases res.monthlyRequired <;> simp
    · simp [aggStep, qualCoverage?, hres, hc]
      cases res.monthlyRequired <;> simp

lemma foldl_aggStep_coverage (goals : List Goal) :
    ∀ acc : AggAcc,
      (goals.foldl aggStep acc).coverageSum =
          acc.coverageSum + (qualCoverages goals).sum ∧
        (goals.foldl aggStep acc).coverageCount =
          acc.coverageCount + (qualCoverages goals).length := by
  induction goals with
  | nil => intro acc; simp [qualCoverages]
  | cons g t ih =>
    intro acc
    have hsum := aggStep_coverageSum acc g
    have hcount := aggStep_coverageCount acc g
    have ht := ih (aggStep acc g)
    rw [List.foldl_cons] at *
    cases hq : qualCoverage? g with
    | none =>
      rw [hq] at hsum hcount
      constructor
      · rw [ht.1, hsum]
        simp [qualCoverages, List.filterMap_cons, hq]
      · rw [ht.2, hcount]
        simp [qualCoverages, List.filterMap_cons, hq]
    | some c =>
      rw [hq] at hsum hcount
      constructor
      · rw [ht.1, hsum]
        simp [qualCoverages, List.filterMap_cons, hq]
        ring
      · rw [ht.2, hcount]
        simp [qualCoverages, List.filterMap_cons, hq]
        ring

lemma aggOf_coverageSum (goals : List Goal) :
    (aggOf goals).coverageSum = (qualCoverages goals).sum := by
  have h := (foldl_aggStep_coverage goals ⟨0, 0, 0, 0⟩).1
  rw [aggOf, h]
  simp

lemma aggOf_coverageCount (goals : List Goal) :
    (aggOf goals).coverageCount = (qualCoverages goals).length := by
  have h := (foldl_aggStep_coverage goals ⟨0, 0, 0, 0⟩).2
  rw [aggOf, h]
  simp

lemma qualCoverages_pos (goals : List Goal) {x : ℝ}
    (hx : x ∈ qualCoverages goals) : 0 < x := by
  obtain ⟨g, _, hg⟩ := List.mem_filterMap.mp hx
  unfold qualCoverage? at hg
  cases hres : g.results with
  | none => rw [hres] at hg; exact Option.noConfusion hg
  | some res =>
    rw [hres] at hg
    by_cases hc : 0 < res.coverage
    · simp only [hc, if_true] at hg
      exact (Option.some_injective _ hg) ▸ hc
    · simp only [hc, if_false] at hg
      exact Option.noConfusion hg

lemma avgCoverageOf_eq (goals : List Goal) :
    avgCoverageOf goals =
      if qualCoverages goals = [] then 0
      else (qualCoverages goals).sum / ((qualCoverages goals).length : ℝ) := by
  unfold avgCoverageOf
  rw [aggOf_coverageSum, aggOf_coverageCount]
  by_cases h : qualCoverages goals = []
  · simp [h]
  · have hlen : 0 < (qualCoverages goals).length := List.length_pos.mpr h
    rw [if_pos hlen, if_neg h]

lemma avgCoverageOf_pos (goals : List Goal) (h : qualCoverages goals ≠ []) :
    0 < avgCoverageOf goals := by
  rw [avgCoverageOf_eq, if_neg h]
  have hsum : 0 < (qualCoverages goals).sum :=
    List.sum_pos _ (fun x hx => qualCoverages_pos goals hx) h
  have hlen : (0 : ℝ) < ((qualCoverages goals).length : ℝ) := by
    exact_mod_cast List.length_pos.mpr h
  exact div_pos hsum hlen

/-- C8: the portfolio average coverage is the mean of `coverage` over
exactly those goals that have computed `Results` and `coverage > 0`; with
no qualifying goal the badge is `Getting started`, and otherwise the badge
is determined by the average with tiers `(0, 0.7)` high risk,
`[0.7, 1)` almost there, `[1, 1.2)` on track, `≥ 1.2` overprepared. -/
theorem C8_average_coverage_badge (goals : List Goal) :
    (avgCoverageOf goals =
      if qualCoverages goals = [] then 0
      else (qualCoverages goals).sum / ((qualCoverages goals).length : ℝ)) ∧
    (qualCoverages goals = [] → portfolioBadge goals = Badge.gettingStarted) ∧
    (qualCoverages goals ≠ [] →
      ((avgCoverageOf goals < 0.7 → portfolioBadge goals = Badge.highRisk) ∧
       (0.7 ≤ avgCoverageOf goals ∧ avgCoverageOf goals < 1 →
         portfolioBadge goals = Badge.almostThere) ∧
       (1 ≤ avgCoverageOf goals ∧ avgCoverageOf goals < 1.2 →
         portfolioBadge goals = Badge.onTrack) ∧
       (1.2 ≤ avgCoverageOf goals → portfolioBadge goals = Badge.overprepared))) := by
  refine ⟨avgCoverageOf_eq goals, ?_, ?_⟩
  · intro h
    unfold portfolioBadge badgeOfAvg
    rw [avgCoverageOf_eq, if_pos h]
    norm_num
  · intro h
    have hpos : 0 < avgCoverageOf goals := avgCoverageOf_pos goals h
    refine ⟨?_, ?_, ?_, ?_⟩
    · intro hc
      unfold portfolioBadge badgeOfAvg
      have h1 : ¬ (1 ≤ avgCoverageOf goals ∧ avgCoverageOf goals < 1.2) := by
        rintro ⟨hx, _⟩; linarith
      have h2 : ¬ (1.2 : ℝ) ≤ avgCoverageOf goals := by linarith
      have h3 : ¬ (0.7 : ℝ) ≤ avgCoverageOf goals := by linarith
      rw [if_neg h1, if_neg h2, if_neg h3, if_pos hpos]
    · rintro ⟨hc1, hc2⟩
      unfold portfolioBadge badgeOfAvg
      have h1 : ¬ (1 ≤ avgCoverageOf goals ∧ avgCoverageOf goals < 1.2) := by
        rintro ⟨hx, _⟩; linarith
      have h2 : ¬ (1.2 : ℝ) ≤ avgCoverageOf goals := by linarith
      rw [if_neg h1, if_neg h2, if_pos hc1]
    · rintro ⟨hc1, hc2⟩
      unfold portfolioBadge badgeOfAvg
      rw [if_pos ⟨hc1, hc2⟩]
    · intro hc
      unfold portfolioBadge badgeOfAvg
      have h1 : ¬ (1 ≤ avgCoverageOf goals ∧ avgCoverageOf goals < 1.2) := by
        rintro ⟨_, hy⟩; linarith
      rw [if_neg h1, if_pos hc]

/-- A `Results` record carrying only a chosen coverage, for instantiating
the aggregate theorems. -/
noncomputable def resWithCoverage (c : ℝ) : Results :=
  ⟨0, 0, 0, 0, some 0, [], HealthTier.undefinedGoal, c, 0⟩

/-- A computed goal with coverage `1`. -/
noncomputable def covGoalA : Goal :=
  ⟨1, ⟨none, none, none, none, none, none, none⟩, some (resWithCoverage 1)⟩

/-- A computed goal with coverage `1.2`. -/
noncomputable def covGoalB : Goal :=
  ⟨2, ⟨none, none, none, none, none, none, none⟩, some (resWithCoverage 1.2)⟩

/-- Concrete instantiation of `C8_average_coverage_badge`: coverages `1`
and `1.2` average to `1.1`, giving the `On track` badge. -/
theorem C8_average_coverage_badge_witness :
    portfolioBadge [covGoalA, covGoalB] = Badge.onTrack := by
  have hq : qualCoverages [covGoalA, covGoalB] = [1, 1.2] := by
    norm_num [qualCoverages, qualCoverage?, resWithCoverage, covGoalA, covGoalB,
      List.filterMap_cons]
  have hne : qualCoverages [covGoalA, covGoalB] ≠ [] := by
    rw [hq]; exact List.cons_ne_nil _ _
  have havg : avgCoverageOf [covGoalA, covGoalB] = 1.1 := by
    rw [avgCoverageOf_eq, if_neg hne, hq]
    norm_num
  exact (((C8_average_coverage_badge [covGoalA, covGoalB]).2.2 hne).2.2.1)
    ⟨by rw [havg]; norm_num, by rw [havg]; norm_num⟩

/-! ### Sign facts about the monthly rate -/

lemma rmOf_ge_neg_one (i : Inputs) (h : -1200 ≤ annualReturnN i) :
    -1 ≤ rmOf i := by
  unfold rmOf rOf
  rw [div_div, le_div_iff₀ (by norm_num : (0 : ℚ) < 100 * 12)]
  linarith

/-- An extreme negative return: the counterexample inputs for the
non-negativity claim (target 100, two years, annual return −3600 %,
so the monthly rate is −3). -/
def negReturnInputs : Inputs :=
  ⟨some 100, some 2, none, none, some (-3600), none, none⟩

lemma negReturnInputs_effectiveTarget :
    effectiveTargetOf negReturnInputs = 100 := by
  unfold effectiveTargetOf inflationFactorOf
  rw [if_neg (by decide)]
  norm_num [baseTargetN, negReturnInputs, jsOr]

/-- C2 counterexample: at annual return `−3600` (monthly rate `−3`) with a
two-year horizon, the computed required monthly contribution is negative
— the code never clamps `monthlyRequired` itself. -/
theorem C2_counterexample_negative_required :
    (computeResults negReturnInputs).monthlyRequired.getD 0 < 0 := by
  show monthlyRequiredOf negReturnInputs < 0
  have hneeded : neededOf negReturnInputs = 100 := by
    unfold neededOf
    rw [negReturnInputs_effectiveTarget,
      show fvLumpOf negReturnInputs = 0 from by
        unfold fvLumpOf
        split_ifs <;> simp [currentSavingsN, negReturnInputs, jsOr]]
    norm_num
  have hr : ¬ rOf negReturnInputs = 0 := by
    norm_num [rOf, annualReturnN, negReturnInputs, jsOr]
  have hrm : rmOf negReturnInputs = -3 := by
    norm_num [rmOf, rOf, annualReturnN, negReturnInputs, jsOr]
  have hm : monthsOf negReturnInputs = 24 := by
    norm_num [monthsOf, yearsN, negReturnInputs, jsOr, round_eq]
    rfl
  unfold monthlyRequiredOf
  rw [hneeded, if_neg (by norm_num : ¬ (100 : ℝ) ≤ 0), if_neg hr, hrm, hm]
  norm_num

/-- C2 amended: for every normalized input whose annual return is at
least `−1200` % (monthly rate `≥ −1`) — in particular every non-negative
return — the computed required monthly contribution is non-negative. -/
theorem C2_amended_required_nonneg (i : Inputs) (h : -1200 ≤ annualReturnN i) :
    0 ≤ (computeResults i).monthlyRequired.getD 0 := by
  show 0 ≤ monthlyRequiredOf i
  unfold monthlyRequiredOf
  by_cases h0 : neededOf i ≤ 0
  · rw [if_pos h0]
  · rw [if_neg h0]
    have hneed : 0 < neededOf i := not_le.mp h0
    by_cases hr : rOf i = 0
    · rw [if_pos hr]
      have hm : (0 : ℝ) < (monthsOf i : ℝ) :=
        Nat.cast_pos.mpr (one_le_monthsOf i)
      exact le_of_lt (div_pos hneed hm)
    · rw [if_neg hr]
      have hrm_ne : rmOf i ≠ 0 := fun hh => hr ((rmOf_eq_zero_iff i).mp hh)
      have hrm1 : (-1 : ℝ) ≤ (rmOf i : ℝ) := by
        exact_mod_cast rmOf_ge_neg_one i h
      rcases lt_or_gt_of_ne hrm_ne with hneg | hpos
      · have hnegR : (rmOf i : ℝ) < 0 := by exact_mod_cast hneg
        have hbase0 : (0 : ℝ) ≤ 1 + (rmOf i : ℝ) := by linarith
        have hpow : (1 + (rmOf i : ℝ)) ^ monthsOf i ≤ 1 :=
          pow_le_one₀ hbase0 (by linarith)
        apply div_nonneg_iff.mpr
        refine Or.inr ⟨?_, by linarith⟩
        exact mul_nonpos_iff.mpr (Or.inl ⟨hneed.le, hnegR.le⟩)
      · have hposR : (0 : ℝ) < (rmOf i : ℝ) := by exact_mod_cast hpos
        have hbase : 1 < 1 + (rmOf i : ℝ) := by linarith
        have hpow : 1 < (1 + (rmOf i : ℝ)) ^ monthsOf i :=
          one_lt_pow₀ hbase (monthsOf_ne_zero i)
        exact le_of_lt
          (div_pos (mul_pos hneed hposR) (by linarith))

/-- Concrete instantiation of `C2_amended_required_nonneg`: the spec's
default scenario (12 % return). -/
theorem C2_amended_required_nonneg_witness :
    0 ≤ (computeResults
      ⟨some 1500000, some 5, some 50000, some 10000, some 12, some 5,
        some 3⟩).monthlyRequired.getD 0 :=
  C2_amended_required_nonneg
    ⟨some 1500000, some 5, some 50000, some 10000, some 12, some 5, some 3⟩
    (by decide)

/-! ### Monotonicity of the projected total -/

lemma annuityFactor_nonneg (i : Inputs) (h1 : -1 ≤ rmOf i)
    (hr : ¬ rOf i = 0) :
    0 ≤ ((1 + rmOf i) ^ monthsOf i - 1) / rmOf i := by
  have hrm_ne : rmOf i ≠ 0 := fun hh => hr ((rmOf_eq_zero_iff i).mp hh)
  rcases lt_or_gt_of_ne hrm_ne with hneg | hpos
  · have hpow : (1 + rmOf i) ^ monthsOf i ≤ 1 :=
      pow_le_one₀ (by linarith) (by linarith)
    exact div_nonneg_iff.mpr (Or.inr ⟨by linarith, hneg.le⟩)
  · have hpow : 1 ≤ (1 + rmOf i) ^ monthsOf i :=
      one_le_pow₀ (by linarith)
    exact div_nonneg (by linarith) hpos.le

lemma fvTotalOf_mono_mc (i : Inputs) (v : RawValue) (h1 : -1 ≤ rmOf i)
    (hle : monthlyContributionN i ≤ jsOr v 0) :
    fvTotalOf i ≤ fvTotalOf { i with monthlyContribution := v } := by
  have hl : fvLumpOf { i with monthlyContribution := v } = fvLumpOf i := rfl
  unfold fvTotalOf
  rw [hl]
  apply add_le_add_left
  show fvSipOf i ≤ fvSipOf { i with monthlyContribution := v }
  have hmc : monthlyContributionN { i with monthlyContribution := v } =
      jsOr v 0 := rfl
  unfold fvSipOf
  by_cases hr : rOf i = 0
  · rw [if_pos hr, if_pos (show rOf { i with monthlyContribution := v } = 0 from hr)]
    exact mul_le_mul_of_nonneg_right hle (Nat.cast_nonneg _)
  · rw [if_neg hr, if_neg (show ¬ rOf { i with monthlyContribution := v } = 0 from hr)]
    exact mul_le_mul_of_nonneg_right hle (annuityFactor_nonneg i h1 hr)

lemma fvTotalOf_mono_cs (i : Inputs) (v : RawValue) (h1 : -1 ≤ rmOf i)
    (hle : currentSavingsN i ≤ jsOr v 0) :
    fvTotalOf i ≤ fvTotalOf { i with currentSavings := v } := by
  have hs : fvSipOf { i with currentSavings := v } = fvSipOf i := rfl
  unfold fvTotalOf
  rw [hs]
  apply add_le_add_right
  show fvLumpOf i ≤ fvLumpOf { i with currentSavings := v }
  unfold fvLumpOf
  by_cases hr : rOf i = 0
  · rw [if_pos hr, if_pos (show rOf { i with currentSavings := v } = 0 from hr)]
    exact hle
  · rw [if_neg hr, if_neg (show ¬ rOf { i with currentSavings := v } = 0 from hr)]
    exact mul_le_mul_of_nonneg_right hle (pow_nonneg (by linarith) _)

lemma coverageOf_mono (i i2 : Inputs)
    (heff : effectiveTargetOf i2 = effectiveTargetOf i)
    (hft : fvTotalOf i ≤ fvTotalOf i2) :
    coverageOf i ≤ coverageOf i2 := by
  unfold coverageOf
  rw [heff]
  by_cases hpos : 0 < effectiveTargetOf i
  · rw [if_pos hpos, if_pos hpos]
    exact (div_le_div_iff_of_pos_right hpos).mpr (by exact_mod_cast hft)
  · rw [if_neg hpos, if_neg hpos]

/-- C5 counterexample inputs: annual return `−3600` % again; raising the
monthly contribution from `0` to `1` strictly lowers the coverage. -/
def negReturnInputsB : Inputs :=
  ⟨some 100, some 2, none, none, some (-3600), none, none⟩

/-- `negReturnInputsB` with only `monthlyContribution` raised to `1`. -/
def negReturnInputsB2 : Inputs :=
  ⟨some 100, some 2, none, some 1, some (-3600), none, none⟩

/-- C5 counterexample: with the extreme negative return of
`negReturnInputsB`, increasing only `monthlyContribution` (from
unset, i.e. `0`, to `1`) strictly decreases coverage, refuting
monotonicity for arbitrary normalized inputs. -/
theorem C5_counterexample_not_monotone :
    (computeResults { negReturnInputsB with monthlyContribution := some 1 }).coverage <
      (computeResults negReturnInputsB).coverage := by
  show coverageOf _ < coverageOf _
  have heffB : effectiveTargetOf negReturnInputsB = 100 := by
    unfold effectiveTargetOf inflationFactorOf
    rw [if_neg (by decide)]
    norm_num [baseTargetN, negReturnInputsB, jsOr]
  have heff2 : effectiveTargetOf
      { negReturnInputsB with monthlyContribution := some 1 } =
      effectiveTargetOf negReturnInputsB := rfl
  have hr : ¬ rOf negReturnInputsB = 0 := by
    norm_num [rOf, annualReturnN, negReturnInputsB, jsOr]
  have hrm : rmOf negReturnInputsB = -3 := by
    norm_num [rmOf, rOf, annualReturnN, negReturnInputsB, jsOr]
  have hm : monthsOf negReturnInputsB = 24 := by
    norm_num [monthsOf, yearsN, negReturnInputsB, jsOr, round_eq]
    rfl
  have h1 : fvTotalOf negReturnInputsB = 0 := by
    unfold fvTotalOf fvLumpOf fvSipOf
    rw [if_neg hr, if_neg hr]
    simp [currentSavingsN, monthlyContributionN, negReturnInputsB, jsOr]
  have hB2 : { negReturnInputsB with monthlyContribution := some 1 } =
      negReturnInputsB2 := rfl
  have hr2 : ¬ rOf negReturnInputsB2 = 0 := by
    norm_num [rOf, annualReturnN, negReturnInputsB2, jsOr]
  have h2 : fvTotalOf negReturnInputsB2 = -5592405 := by
    unfold fvTotalOf fvLumpOf fvSipOf
    rw [if_neg hr2, if_neg hr2]
    have hcs : currentSavingsN negReturnInputsB2 = 0 := rfl
    have hmc : monthlyContributionN negReturnInputsB2 = 1 := rfl
    have hrm2 : rmOf negReturnInputsB2 = -3 := by
      norm_num [rmOf, rOf, annualReturnN, negReturnInputsB2, jsOr]
    have hm2 : monthsOf negReturnInputsB2 = 24 := by
      norm_num [monthsOf, yearsN, negReturnInputsB2, jsOr, round_eq]
      rfl
    rw [hcs, hmc, hrm2, hm2]
    norm_num
  unfold coverageOf
  rw [heff2, heffB, hB2, if_pos (by norm_num : (0:ℝ) < 100),
    if_pos (by norm_num : (0:ℝ) < 100), h1, h2]
  norm_num

/-- C5 amended: coverage is non-decreasing in `monthlyContribution` and in
`currentSavings` (all other fields fixed) provided the normalized annual
return is at least `−1200` % (monthly rate `≥ −1`) — in particular for
every non-negative annual return. -/
theorem C5_amended_coverage_monotone (i : Inputs) (v : RawValue)
    (h : -1200 ≤ annualReturnN i) :
    (monthlyContributionN i ≤ jsOr v 0 →
      (computeResults i).coverage ≤
        (computeResults { i with monthlyContribution := v }).coverage) ∧
    (currentSavingsN i ≤ jsOr v 0 →
      (computeResults i).coverage ≤
        (computeResults { i with currentSavings := v }).coverage) := by
  have hrm1 : -1 ≤ rmOf i := rmOf_ge_neg_one i h
  constructor
  · intro hle
    show coverageOf i ≤ coverageOf { i with monthlyContribution := v }
    exact coverageOf_mono i _ rfl (fvTotalOf_mono_mc i v hrm1 hle)
  · intro hle
    show coverageOf i ≤ coverageOf { i with currentSavings := v }
    exact coverageOf_mono i _ rfl (fvTotalOf_mono_cs i v hrm1 hle)

/-- Concrete instantiation of `C5_amended_coverage_monotone`: raising the
monthly contribution from `10000` to `20000` in the default scenario does
not lower coverage. -/
theorem C5_amended_coverage_monotone_witness :
    (computeResults
        ⟨some 1500000, some 5, some 50000, some 10000, some 12, some 5,
          some 3⟩).coverage ≤
      (computeResults
        { (⟨some 1500000, some 5, some 50000, some 10000, some 12, some 5,
            some 3⟩ : Inputs) with
          monthlyContribution := some 20000 }).coverage :=
  (C5_amended_coverage_monotone
    ⟨some 1500000, some 5, some 50000, some 10000, some 12, some 5, some 3⟩
    (some 20000) (by decide)).1 (by decide)

/-! ### Scenario engine -/

lemma scenarioYears_eq (v : RawValue) :
    scenarioYears v = if jsOr v 0 + 2 = 0 then 2 else jsOr v 0 + 2 := by
  cases v with
  | none => norm_num [scenarioYears, jsOr]
  | some y =>
    by_cases hy : y = 0
    · subst hy
      norm_num [scenarioYears, jsOr]
    · simp only [scenarioYears, jsOr, Option.map_some', if_neg hy]

/-- C7 amended: the scenario engine produces exactly three derived
`Results` by re-running the projection on copies of the active goal's
inputs with one field perturbed each — `monthlyContribution + 2000` and
`targetAmount - 200000` floored at `0` exactly as claimed, while the
years perturbation is `normalized years + 2` except that a sum of `0`
(raw years parsing to `-2`) falls back to `2`, `0` being falsy in the
source — and the computation reads only the goal's inputs, leaving the
goal (in particular its stored `Results`) untouched. -/
theorem C7_amended_scenarios (g : Goal) :
    scenarioResults g =
      (computeResults
          { g.inputs with
            years :=
              some (if yearsN g.inputs + 2 = 0 then 2 else yearsN g.inputs + 2) },
        computeResults
          { g.inputs with
            monthlyContribution := some (monthlyContributionN g.inputs + 2000) },
        computeResults
          { g.inputs with
            targetAmount := some (max 0 (baseTargetN g.inputs - 200000)) }) ∧
    (∀ res : Option Results, scenarioResults { g with results := res } = scenarioResults g) := by
  constructor
  · simp only [scenarioResults]
    rw [scenarioYears_eq]
    rfl
  · intro res
    rfl

/-- The C7 counterexample goal: raw years `-2`, monthly contribution
`1000`, zero return. -/
def yearsMinusTwoGoal : Goal :=
  ⟨1, ⟨none, some (-2), none, some 1000, none, none, none⟩, none⟩

/-- The years-perturbed copy prescribed by the claim (normalized years
`+ 2`, i.e. years `0`) for `yearsMinusTwoGoal`, written out. -/
def yearsMinusTwoClaimCopy : Inputs :=
  ⟨none, some 0, none, some 1000, none, none, none⟩

/-- C7 counterexample: on raw years `-2` the claimed perturbation
(`normalized years + 2`, i.e. years `0`) disagrees with the code, whose
`(Number(years) + 2 || 2)` falls back to years `2`: the first scenario's
`fvSip` is `24000`, not the `1000` the claimed copy yields. -/
theorem C7_counterexample_years_falsy :
    (scenarioResults yearsMinusTwoGoal).1 ≠
      computeResults
        { yearsMinusTwoGoal.inputs with
          years := some (yearsN yearsMinusTwoGoal.inputs + 2) } := by
  intro h
  have h' := congrArg Results.fvSip h
  have hclaim : { yearsMinusTwoGoal.inputs with
      years := some (yearsN yearsMinusTwoGoal.inputs + 2) } =
      yearsMinusTwoClaimCopy := by
    show (⟨none, some (yearsN yearsMinusTwoGoal.inputs + 2), none, some 1000,
      none, none, none⟩ : Inputs) = _
    have : yearsN yearsMinusTwoGoal.inputs + 2 = 0 := by
      norm_num [yearsN, yearsMinusTwoGoal, jsOr]
    rw [this]
    rfl
  rw [hclaim] at h'
  have hA : (scenarioResults yearsMinusTwoGoal).1.fvSip = 24000 := by
    show fvSipOf
      { yearsMinusTwoGoal.inputs with
        years := some (scenarioYears yearsMinusTwoGoal.inputs.years) } = 24000
    have hy : scenarioYears yearsMinusTwoGoal.inputs.years = 2 := by
      norm_num [scenarioYears, yearsMinusTwoGoal, jsOr]
    rw [hy]
    show fvSipOf (⟨none, some 2, none, some 1000, none, none, none⟩ : Inputs) = 24000
    have hr : rOf (⟨none, some 2, none, some 1000, none, none, none⟩ : Inputs) = 0 := by
      norm_num [rOf, annualReturnN, jsOr]
    have hm : monthsOf (⟨none, some 2, none, some 1000, none, none, none⟩ : Inputs) = 24 := by
      norm_num [monthsOf, yearsN, jsOr, round_eq]
      rfl
    rw [fvSipOf, if_pos hr, hm]
    norm_num [monthlyContributionN, jsOr]
  have hB : (computeResults yearsMinusTwoClaimCopy).fvSip = 1000 := by
    show fvSipOf yearsMinusTwoClaimCopy = 1000
    have hr : rOf yearsMinusTwoClaimCopy = 0 := by
      norm_num [rOf, annualReturnN, yearsMinusTwoClaimCopy, jsOr]
    have hm : monthsOf yearsMinusTwoClaimCopy = 1 := by
      norm_num [monthsOf, yearsN, yearsMinusTwoClaimCopy, jsOr, round_eq]
    rw [fvSipOf, if_pos hr, hm]
    norm_num [monthlyContributionN, yearsMinusTwoClaimCopy, jsOr]
  rw [hA, hB] at h'
  norm_num at h'
